import Mathlib

/-!
Verification development for the gapper autograder core: the outcome-record
type (`TestResult`), the post-test runner and the score synthesizer
(`ResultSynthesizer`), shallowly embedded from
`src/gap/core/test_result.py` and `src/gapper/core/result_synthesizer.py`.
Python floats are modelled as exact rationals (`ℚ`); Python exceptions are
modelled by an explicit error type threaded through `Except`, and in-place
mutation of the shared results list by returning the list state alongside
the outcome.
-/

/-- Pass status of a test outcome, from `PassStateType`
(the string literals "passed" / "failed" / "errored" in the source). -/
inductive PassStatus where
  | passed
  | failed
  | errored
  deriving DecidableEq, Repr

/-- An error detail attached to a result. The source's `ErrorFormatter`
objects are opaque to the core logic, which only appends and stores them;
they are modelled by their formatted text. -/
abbrev ErrorFormatter := String

/-- The outcome record of one test, from the `TestResult` dataclass in
`src/gap/core/test_result.py`. The synthesizer (`result_synthesizer.py`)
reads the extra-credit field under the name `extra_points`; the same field
is declared `extra_score` in `gap/core/test_result.py`. We use the
synthesizer's name. -/
structure TestResult where
  default_name : String
  name : Option String
  score : Option ℚ
  max_score : Option ℚ
  weight : Option ℚ
  extra_points : Option ℚ
  errors : List ErrorFormatter
  pass_status : PassStatus
  hidden : Bool
  descriptions : List String
  deriving DecidableEq, Repr

/-- A `TestResult` as freshly constructed by `TestResult(default_name)`:
every other dataclass field takes its declared default. -/
def freshResult (default_name : String) : TestResult :=
  ⟨default_name, none, none, none, none, none, [], PassStatus.passed, false, []⟩

/-- `TestResult.set_name`. -/
def TestResult.set_name (r : TestResult) (n : String) : TestResult :=
  { r with name := some n }

/-- `TestResult.add_description`. -/
def TestResult.add_description (r : TestResult) (detail : String) : TestResult :=
  { r with descriptions := r.descriptions ++ [detail] }

/-- `TestResult.set_description`. -/
def TestResult.set_description (r : TestResult) (details : List String) : TestResult :=
  { r with descriptions := details }

/-- `TestResult.set_hidden`. -/
def TestResult.set_hidden (r : TestResult) (h : Bool) : TestResult :=
  { r with hidden := h }

/-- `TestResult.set_score`. -/
def TestResult.set_score (r : TestResult) (s : ℚ) : TestResult :=
  { r with score := some s }

/-- `TestResult.set_extra_score`. -/
def TestResult.set_extra_score (r : TestResult) (s : ℚ) : TestResult :=
  { r with extra_points := some s }

/-- `TestResult.set_status`. -/
def TestResult.set_status (r : TestResult) (status : PassStatus) : TestResult :=
  { r with pass_status := status }

/-- `TestResult.add_error`: append the error, then downgrade the status to
failed unless `set_failed` is passed as false (its Python default is true). -/
def TestResult.add_error (r : TestResult) (error : ErrorFormatter)
    (set_failed : Bool) : TestResult :=
  let appended := { r with errors := r.errors ++ [error] }
  if set_failed then appended.set_status PassStatus.failed else appended

/-- The reason carried by an `InternalError` raised in `synthesize_score`,
one constructor per distinct `raise InternalError(...)` site. -/
inductive InternalReason where
  | bothNone
  | bothSet
  | overBudget
  | negativeScore
  | scoreAndExtra
  deriving DecidableEq, Repr

/-- The exceptions the embedded core can raise: `InternalError` (from
`gapper.core.errors`), Python's built-in `ZeroDivisionError` (unhandled in
the source) and `ValueError` (from the `total_score` property), plus the
`assert` statements in `synthesize_score`. -/
inductive PyError where
  | internalError (reason : InternalReason)
  | zeroDivisionError
  | valueError
  | assertionError
  deriving DecidableEq, Repr

/-- Modelled from the spec: `gapper.gradescope.datatypes.gradescope_meta`
is not part of the core sources; the Synthesis Context only reads the
assignment's total points from the submission metadata (spec §3, §6). -/
structure GradescopeAssignment where
  total_points : ℚ
  deriving DecidableEq, Repr

/-- Modelled from the spec: submission metadata as consumed by the core —
it carries the assignment record whose `total_points` the `total_score`
property returns. -/
structure GradescopeSubmissionMetadata where
  assignment : GradescopeAssignment
  deriving DecidableEq, Repr

/-- A post test, from the `PostTest` class in `result_synthesizer.py`:
`post_test_fn` receives the synthesizer and a result proxy (a fresh
`TestResult` when `as_test_case` is true, `None` otherwise) and mutates the
proxy in place; it is modelled as the transformation it applies to its
proxy. `fn_name` is the hook function's `__name__`. -/
structure PostTest where
  fn_name : String
  as_test_case : Bool
  post_test_fn : TestResult → TestResult

/-- The `ResultSynthesizer` state: the shared results list, the declared
post tests, the optional submission metadata and the optional explicit
total score (`_total_score`). -/
structure ResultSynthesizer where
  results : List TestResult
  post_tests : List PostTest
  metadata : Option GradescopeSubmissionMetadata
  total_score_arg : Option ℚ

/-- The `total_score` property: raise `ValueError` when neither metadata
nor `_total_score` is set; otherwise metadata takes precedence. -/
def ResultSynthesizer.total_score (s : ResultSynthesizer) : Except PyError ℚ :=
  match s.metadata, s.total_score_arg with
  | none, none => Except.error PyError.valueError
  | some m, _ => Except.ok m.assignment.total_points
  | none, some t => Except.ok t

/-- The `addition_test_results` list built by the loop in
`run_post_tests`: one fresh proxy record, named after the hook function and
mutated by the hook body, per post test with `as_test_case` true; nothing
for post tests with `as_test_case` false. -/
def postTestAdditions : List PostTest → List TestResult
  | [] => []
  | pt :: rest =>
    if pt.as_test_case then
      pt.post_test_fn (freshResult pt.fn_name) :: postTestAdditions rest
    else
      postTestAdditions rest

/-- `ResultSynthesizer.run_post_tests`: run every post test in declaration
order, then extend `self._results` with the collected proxy records. -/
def ResultSynthesizer.run_post_tests (s : ResultSynthesizer) : ResultSynthesizer :=
  { s with results := s.results ++ postTestAdditions s.post_tests }

/-- The first loop of `synthesize_score`, accumulating `max_score_sum` and
`weight_sum` over the results in order: a record with both `max_score` and
`weight` unset raises `InternalError` (regardless of a pre-set `score`), a
record with both set raises `InternalError`, otherwise the set field is
added to its sum. -/
def partitionSums (max_score_sum weight_sum : ℚ) :
    List TestResult → Except PyError (ℚ × ℚ)
  | [] => Except.ok (max_score_sum, weight_sum)
  | r :: rest =>
    match r.max_score, r.weight with
    | none, none => Except.error (PyError.internalError InternalReason.bothNone)
    | some _, some _ => Except.error (PyError.internalError InternalReason.bothSet)
    | some m, none => partitionSums (max_score_sum + m) weight_sum rest
    | none, some w => partitionSums max_score_sum (weight_sum + w) rest

/-- One step of the allocation loop: a record carrying a weight gets
`max_score := weight * remaining_score / weight_sum` and its weight
cleared; other records are untouched. -/
def allocRecord (remaining_score weight_sum : ℚ) (r : TestResult) : TestResult :=
  match r.weight with
  | some w =>
    { r with max_score := some (w * remaining_score / weight_sum), weight := none }
  | none => r

/-- Whether some record still carries a weight (the allocation loop body
runs at least once exactly when this holds). -/
def hasWeighted (results : List TestResult) : Bool :=
  results.any fun r => r.weight.isSome

/-- The score a record contributes to the final sum (every record's score
is set by the time the sum is taken). -/
def scoreOf (r : TestResult) : ℚ := r.score.getD 0

/-- One iteration of the final loop of `synthesize_score` on one record:
a pre-set score must be non-negative and must not coexist with
`extra_points`; otherwise a score is resolved from the pass status —
`max_score + 0` when passed without extra points, `extra_points` when
passed with them, `0` when not passed. The `assert res.max_score is not
None` of the source is the `assertionError` branch. -/
def resolveStep (r : TestResult) : Except PyError TestResult :=
  match r.score with
  | some sc =>
    if sc < 0 then Except.error (PyError.internalError InternalReason.negativeScore)
    else
      match r.extra_points with
      | some _ => Except.error (PyError.internalError InternalReason.scoreAndExtra)
      | none => Except.ok r
  | none =>
    match r.max_score with
    | none => Except.error PyError.assertionError
    | some m =>
      if r.pass_status = PassStatus.passed then
        let resolved : ℚ := match r.extra_points with | none => m + 0 | some e => e
        Except.ok { r with score := some resolved }
      else
        Except.ok { r with score := some 0 }

/-- The final loop of `synthesize_score` over the results in order,
returning the list state at exit: on the first failing record the loop
aborts, leaving that record and the ones after it unprocessed (but already
allocated). -/
def resolveLoop : List TestResult → List TestResult × Option PyError
  | [] => ([], none)
  | r :: rest =>
    match resolveStep r with
    | Except.error e => (r :: rest, some e)
    | Except.ok r2 =>
      let tail := resolveLoop rest
      (r2 :: tail.1, tail.2)

/-- `synthesize_score` after the first loop succeeded with sums
`max_score_sum` and `weight_sum` and the total score resolved: the
over-budget check, then the allocation loop (whose first iteration raises
`ZeroDivisionError` when `weight_sum` is zero), then the final resolving
loop and the sum. The first component is the state of the results list
when the call returns or raises. -/
def synthesizeFrom (results : List TestResult)
    (total max_score_sum weight_sum : ℚ) :
    List TestResult × Except PyError ℚ :=
  if max_score_sum > total then
    (results, Except.error (PyError.internalError InternalReason.overBudget))
  else if hasWeighted results ∧ weight_sum = 0 then
    (results, Except.error PyError.zeroDivisionError)
  else
    match resolveLoop (results.map (allocRecord (total - max_score_sum) weight_sum)) with
    | (st, some e) => (st, Except.error e)
    | (st, none) => (st, Except.ok ((st.map scoreOf).sum))

/-- `ResultSynthesizer.synthesize_score`: first loop, then the total-score
resolution (first forced inside the over-budget comparison), then the rest
of the algorithm. -/
def ResultSynthesizer.synthesize_score (s : ResultSynthesizer) :
    List TestResult × Except PyError ℚ :=
  match partitionSums 0 0 s.results with
  | Except.error e => (s.results, Except.error e)
  | Except.ok (max_score_sum, weight_sum) =>
    match s.total_score with
    | Except.error e => (s.results, Except.error e)
    | Except.ok total => synthesizeFrom s.results total max_score_sum weight_sum

/-- `synthesize_score` on a synthesizer built with an explicit total score
and no metadata or post tests — the common entry point of the claims. -/
def synthesize (results : List TestResult) (total : ℚ) :
    List TestResult × Except PyError ℚ :=
  (ResultSynthesizer.mk results [] none (some total)).synthesize_score

/-- A record with its `extra_points` cleared, used to state that extra
credit is exempt from the budget check. -/
def clearExtra (r : TestResult) : TestResult :=
  { r with extra_points := none }

/-! ### Concrete records used in the concrete-input theorems -/

/-- A record whose score was pre-set by a custom check, with `max_score`
and `weight` both unset. -/
def prescoredOnly : TestResult := { freshResult ("custom_check") with score := some 5 }

/-- A fixed-score record over the total budget of 20. -/
def fixed25 : TestResult := { freshResult ("t_over") with max_score := some 25 }

/-- A weighted record with weight zero. -/
def zeroWeight : TestResult := { freshResult ("t_zero") with weight := some 0 }

/-- A record carrying both a max score and a weight. -/
def ambiguousRec : TestResult :=
  { freshResult ("t_both") with max_score := some 1, weight := some 2 }

/-- A weighted record of weight 1. -/
def weightOne : TestResult := { freshResult ("t_w1") with weight := some 1 }

/-- A weighted record of weight 3. -/
def weightThree : TestResult := { freshResult ("t_w3") with weight := some 3 }

/-- A record with a negative pre-set score (and a max score so that the
first loop accepts it). -/
def negPrescored : TestResult :=
  { freshResult ("t_neg") with score := some (-1), max_score := some 1 }

/-- A failing fixed-score test worth 5 points. -/
def failFixed5 : TestResult :=
  { freshResult ("t_fail") with
    max_score := some 5,
    pass_status := PassStatus.failed }

/-- A passing fixed-score test worth 5 points with 7 extra points. -/
def passExtra : TestResult :=
  { freshResult ("t_extra") with max_score := some 5, extra_points := some 7 }

/-- Submission metadata whose assignment is worth 42 points. -/
def meta42 : GradescopeSubmissionMetadata := ⟨⟨42⟩⟩

/-- The results-list state after synthesizing scenario 5 (a failing fixed
test worth 5 and a passing test worth 5 with 7 extra points). -/
def stScenario5 : List TestResult :=
  [{ failFixed5 with score := some 0 }, { passExtra with score := some 7 }]

/-! ### Equation lemmas for the branches of `resolveStep` -/

theorem failed_ne_passed : PassStatus.failed ≠ PassStatus.passed := by
  decide

theorem errored_ne_passed : PassStatus.errored ≠ PassStatus.passed := by
  decide

theorem resolveStep_neg (r : TestResult) (s : ℚ) (hs : r.score = some s)
    (hneg : s < 0) :
    resolveStep r = Except.error (PyError.internalError InternalReason.negativeScore) := by
  unfold resolveStep
  rw [hs]
  simp [hneg]

theorem resolveStep_score_extra (r : TestResult) (s x : ℚ) (hs : r.score = some s)
    (hneg : ¬ s < 0) (he : r.extra_points = some x) :
    resolveStep r = Except.error (PyError.internalError InternalReason.scoreAndExtra) := by
  unfold resolveStep
  rw [hs]
  simp [hneg, he]

theorem resolveStep_prescored (r : TestResult) (s : ℚ) (hs : r.score = some s)
    (hneg : ¬ s < 0) (he : r.extra_points = none) :
    resolveStep r = Except.ok r := by
  unfold resolveStep
  rw [hs]
  simp [hneg, he]

theorem resolveStep_assert (r : TestResult) (hs : r.score = none)
    (hm : r.max_score = none) :
    resolveStep r = Except.error PyError.assertionError := by
  unfold resolveStep
  rw [hs, hm]

theorem resolveStep_passed (r : TestResult) (m : ℚ) (hs : r.score = none)
    (hm : r.max_score = some m) (hp : r.pass_status = PassStatus.passed)
    (he : r.extra_points = none) :
    resolveStep r = Except.ok { r with score := some (m + 0) } := by
  unfold resolveStep
  rw [hs, hm]
  simp [hp, he]

theorem resolveStep_passed_extra (r : TestResult) (m x : ℚ) (hs : r.score = none)
    (hm : r.max_score = some m) (hp : r.pass_status = PassStatus.passed)
    (he : r.extra_points = some x) :
    resolveStep r = Except.ok { r with score := some x } := by
  unfold resolveStep
  rw [hs, hm]
  simp [hp, he]

theorem resolveStep_not_passed (r : TestResult) (m : ℚ) (hs : r.score = none)
    (hm : r.max_score = some m) (hp : ¬ r.pass_status = PassStatus.passed) :
    resolveStep r = Except.ok { r with score := some 0 } := by
  unfold resolveStep
  rw [hs, hm]
  simp [hp]

/-! ### Structural lemmas about the loops -/

theorem resolveStep_ok_shape (r r2 : TestResult)
    (h : resolveStep r = Except.ok r2) : ∃ s, r2 = { r with score := s } := by
  obtain ⟨dn, nm, sc, ms, w, ep, er, ps, hd, ds⟩ := r
  rcases sc with _ | s
  · rcases ms with _ | m
    · simp [resolveStep] at h
    · rcases ps with _ | _ | _ <;> rcases ep with _ | x <;>
        · simp [resolveStep] at h
          exact ⟨_, h.symm⟩
  · by_cases hneg : s < 0
    · simp [resolveStep, hneg] at h
    · rcases ep with _ | x
      · simp [resolveStep, hneg] at h
        exact ⟨some s, h.symm⟩
      · simp [resolveStep, hneg] at h

theorem resolveStep_ok_score_isSome (r r2 : TestResult)
    (h : resolveStep r = Except.ok r2) : r2.score.isSome = true := by
  obtain ⟨dn, nm, sc, ms, w, ep, er, ps, hd, ds⟩ := r
  rcases sc with _ | s
  · rcases ms with _ | m
    · simp [resolveStep] at h
    · rcases ps with _ | _ | _ <;> rcases ep with _ | x <;>
        · simp [resolveStep] at h
          simp [← h]
  · by_cases hneg : s < 0
    · simp [resolveStep, hneg] at h
    · rcases ep with _ | x
      · simp [resolveStep, hneg] at h
        simp [← h]
      · simp [resolveStep, hneg] at h

theorem resolveStep_error_cases (r : TestResult) (e : PyError)
    (h : resolveStep r = Except.error e) :
    e = PyError.internalError InternalReason.negativeScore ∨
      e = PyError.internalError InternalReason.scoreAndExtra ∨
      e = PyError.assertionError := by
  obtain ⟨dn, nm, sc, ms, w, ep, er, ps, hd, ds⟩ := r
  rcases sc with _ | s
  · rcases ms with _ | m
    · simp [resolveStep] at h
      exact Or.inr (Or.inr h.symm)
    · rcases ps with _ | _ | _ <;> rcases ep with _ | x <;>
        simp [resolveStep] at h
  · by_cases hneg : s < 0
    · simp [resolveStep, hneg] at h
      exact Or.inl h.symm
    · rcases ep with _ | x
      · simp [resolveStep, hneg] at h
      · simp [resolveStep, hneg] at h
        exact Or.inr (Or.inl h.symm)

theorem resolveStep_error_of_max (r : TestResult) (e : PyError)
    (hmax : r.max_score.isSome = true) (h : resolveStep r = Except.error e) :
    e = PyError.internalError InternalReason.negativeScore ∨
      e = PyError.internalError InternalReason.scoreAndExtra := by
  rcases resolveStep_error_cases r e h with h1 | h1 | h1
  · exact Or.inl h1
  · exact Or.inr h1
  · exfalso
    subst h1
    obtain ⟨dn, nm, sc, ms, w, ep, er, ps, hd, ds⟩ := r
    rcases sc with _ | s
    · rcases ms with _ | m
      · simp at hmax
      · rcases ps with _ | _ | _ <;> rcases ep with _ | x <;>
          simp [resolveStep] at h
    · by_cases hneg : s < 0
      · simp [resolveStep, hneg] at h
      · rcases ep with _ | x <;> simp [resolveStep, hneg] at h

theorem resolveStep_error_of_bad (r : TestResult) (s : ℚ)
    (hs : r.score = some s) (hbad : s < 0 ∨ r.extra_points.isSome = true) :
    ∃ e, resolveStep r = Except.error e := by
  by_cases hneg : s < 0
  · exact ⟨_, resolveStep_neg r s hs hneg⟩
  · rcases hbad with hbad | hbad
    · exact absurd hbad hneg
    · rcases he : r.extra_points with _ | x
      · rw [he] at hbad
        exact absurd hbad (by simp)
      · exact ⟨_, resolveStep_score_extra r s x hs hneg he⟩

theorem resolveLoop_length (l : List TestResult) :
    (resolveLoop l).1.length = l.length := by
  induction l with
  | nil => rfl
  | cons r rest ih =>
    rcases h : resolveStep r with e | r2
    · simp [resolveLoop, h]
    · simp [resolveLoop, h, ih]

theorem resolveLoop_fst_max_weight (l : List TestResult) (i : ℕ) :
    ((resolveLoop l).1[i]?.map fun r => (r.max_score, r.weight)) =
      (l[i]?.map fun r => (r.max_score, r.weight)) := by
  induction l generalizing i with
  | nil => rfl
  | cons r rest ih =>
    rcases h : resolveStep r with e | r2
    · simp [resolveLoop, h]
    · rcases i with _ | n
      · obtain ⟨s, rfl⟩ := resolveStep_ok_shape r r2 h
        simp [resolveLoop, h]
      · simp only [resolveLoop, h]
        simpa using ih n

theorem resolveLoop_none_step (l : List TestResult) (hnone : (resolveLoop l).2 = none)
    (i : ℕ) (a : TestResult) (ha : l[i]? = some a) :
    ∃ r2, (resolveLoop l).1[i]? = some r2 ∧ resolveStep a = Except.ok r2 := by
  induction l generalizing i with
  | nil => simp at ha
  | cons r rest ih =>
    rcases h : resolveStep r with e | r2
    · rw [show (resolveLoop (r :: rest)).2 = some e from by simp [resolveLoop, h]] at hnone
      exact absurd hnone (by simp)
    · have hrest : (resolveLoop rest).2 = none := by
        rw [show (resolveLoop (r :: rest)).2 = (resolveLoop rest).2 from by
          simp [resolveLoop, h]] at hnone
        exact hnone
      rcases i with _ | n
      · have har : r = a := by simpa using ha
        subst har
        exact ⟨r2, by simp [resolveLoop, h], h⟩
      · have ha2 : rest[n]? = some a := by simpa using ha
        obtain ⟨r3, h1, h2⟩ := ih hrest n ha2
        exact ⟨r3, by simp [resolveLoop, h, h1], h2⟩

theorem resolveLoop_error_member (l : List TestResult) (e : PyError)
    (h : (resolveLoop l).2 = some e) :
    e = PyError.internalError InternalReason.negativeScore ∨
      e = PyError.internalError InternalReason.scoreAndExtra ∨
      e = PyError.assertionError := by
  induction l with
  | nil => simp [resolveLoop] at h
  | cons r rest ih =>
    rcases hr : resolveStep r with e2 | r2
    · rw [show (resolveLoop (r :: rest)).2 = some e2 from by simp [resolveLoop, hr]] at h
      have he : e2 = e := by simpa using h
      subst he
      exact resolveStep_error_cases r e2 hr
    · rw [show (resolveLoop (r :: rest)).2 = (resolveLoop rest).2 from by
        simp [resolveLoop, hr]] at h
      exact ih h

theorem resolveLoop_error_of_bad (l : List TestResult)
    (hmax : ∀ r ∈ l, r.max_score.isSome = true)
    (r0 : TestResult) (hmem : r0 ∈ l) (s : ℚ) (hs : r0.score = some s)
    (hbad : s < 0 ∨ r0.extra_points.isSome = true) :
    (resolveLoop l).2 = some (PyError.internalError InternalReason.negativeScore) ∨
      (resolveLoop l).2 = some (PyError.internalError InternalReason.scoreAndExtra) := by
  induction l with
  | nil => simp at hmem
  | cons r rest ih =>
    rcases h : resolveStep r with e | r2
    · rcases resolveStep_error_of_max r e (hmax r (by simp)) h with h1 | h1
      · subst h1
        exact Or.inl (by simp [resolveLoop, h])
      · subst h1
        exact Or.inr (by simp [resolveLoop, h])
    · rcases List.mem_cons.mp hmem with heq | hmem2
      · subst heq
        obtain ⟨e, he⟩ := resolveStep_error_of_bad r0 s hs hbad
        rw [he] at h
        exact absurd h (by simp)
      · have ihres := ih (fun x hx => hmax x (by simp [hx])) hmem2
        rcases ihres with h1 | h1
        · exact Or.inl (by simp [resolveLoop, h, h1])
        · exact Or.inr (by simp [resolveLoop, h, h1])

theorem partitionSums_error_of_mem (l : List TestResult) (r : TestResult)
    (hmem : r ∈ l)
    (hbad : (r.max_score = none ∧ r.weight = none) ∨
      (r.max_score.isSome = true ∧ r.weight.isSome = true)) :
    ∀ a b : ℚ, ∃ reason,
      partitionSums a b l = Except.error (PyError.internalError reason) := by
  induction l with
  | nil => simp at hmem
  | cons r0 rest ih =>
    intro a b
    rcases hm : r0.max_score with _ | m <;> rcases hw : r0.weight with _ | w
    · exact ⟨InternalReason.bothNone, by unfold partitionSums; rw [hm, hw]⟩
    · rcases List.mem_cons.mp hmem with heq | hmem2
      · subst heq
        rcases hbad with ⟨_, h1⟩ | ⟨h2, _⟩
        · rw [hw] at h1
          exact absurd h1 (by simp)
        · rw [hm] at h2
          exact absurd h2 (by simp)
      · obtain ⟨reason, hres⟩ := ih hmem2 a (b + w)
        exact ⟨reason, by unfold partitionSums; rw [hm, hw]; exact hres⟩
    · rcases List.mem_cons.mp hmem with heq | hmem2
      · subst heq
        rcases hbad with ⟨h1, _⟩ | ⟨_, h2⟩
        · rw [hm] at h1
          exact absurd h1 (by simp)
        · rw [hw] at h2
          exact absurd h2 (by simp)
      · obtain ⟨reason, hres⟩ := ih hmem2 (a + m) b
        exact ⟨reason, by unfold partitionSums; rw [hm, hw]; exact hres⟩
    · exact ⟨InternalReason.bothSet, by unfold partitionSums; rw [hm, hw]⟩

theorem partitionSums_ok_fields (l : List TestResult) :
    ∀ (a b : ℚ) (p : ℚ × ℚ), partitionSums a b l = Except.ok p →
      ∀ r ∈ l, r.max_score.isSome = true ∨ r.weight.isSome = true := by
  induction l with
  | nil => simp
  | cons r0 rest ih =>
    intro a b p h r hr
    rcases hm : r0.max_score with _ | m <;> rcases hw : r0.weight with _ | w
    · unfold partitionSums at h
      rw [hm, hw] at h
      exact absurd h (by simp)
    · rcases List.mem_cons.mp hr with heq | hmem2
      · subst heq
        exact Or.inr (by rw [hw]; rfl)
      · unfold partitionSums at h
        rw [hm, hw] at h
        exact ih a (b + w) p h r hmem2
    · rcases List.mem_cons.mp hr with heq | hmem2
      · subst heq
        exact Or.inl (by rw [hm]; rfl)
      · unfold partitionSums at h
        rw [hm, hw] at h
        exact ih (a + m) b p h r hmem2
    · unfold partitionSums at h
      rw [hm, hw] at h
      exact absurd h (by simp)

theorem partitionSums_clearExtra (l : List TestResult) :
    ∀ a b : ℚ, partitionSums a b (l.map clearExtra) = partitionSums a b l := by
  induction l with
  | nil => intro a b; rfl
  | cons r0 rest ih =>
    intro a b
    rcases hm : r0.max_score with _ | m <;> rcases hw : r0.weight with _ | w <;>
      · show partitionSums a b (clearExtra r0 :: rest.map clearExtra) = _
        unfold partitionSums
        rw [show (clearExtra r0).max_score = r0.max_score from rfl,
          show (clearExtra r0).weight = r0.weight from rfl, hm, hw]
        all_goals exact ih _ _

theorem allocRecord_weight_some (rem ws : ℚ) (r : TestResult) (w : ℚ)
    (hw : r.weight = some w) :
    allocRecord rem ws r =
      { r with max_score := some (w * rem / ws), weight := none } := by
  unfold allocRecord
  rw [hw]

theorem allocRecord_weight_none (rem ws : ℚ) (r : TestResult) (hw : r.weight = none) :
    allocRecord rem ws r = r := by
  unfold allocRecord
  rw [hw]

theorem allocRecord_preserves (rem ws : ℚ) (r : TestResult) :
    (allocRecord rem ws r).score = r.score ∧
      (allocRecord rem ws r).extra_points = r.extra_points ∧
      (allocRecord rem ws r).pass_status = r.pass_status := by
  rcases hw : r.weight with _ | w
  · rw [allocRecord_weight_none rem ws r hw]
    exact ⟨rfl, rfl, rfl⟩
  · rw [allocRecord_weight_some rem ws r w hw]
    exact ⟨rfl, rfl, rfl⟩

theorem allocRecord_max_isSome (rem ws : ℚ) (r : TestResult)
    (h : r.max_score.isSome = true ∨ r.weight.isSome = true) :
    (allocRecord rem ws r).max_score.isSome = true := by
  rcases hw : r.weight with _ | w
  · rw [allocRecord_weight_none rem ws r hw]
    rcases h with h | h
    · exact h
    · rw [hw] at h
      exact absurd h (by simp)
  · rw [allocRecord_weight_some rem ws r w hw]
    rfl

theorem synthesize_partition_error (results : List TestResult) (total : ℚ)
    (e : PyError) (h : partitionSums 0 0 results = Except.error e) :
    synthesize results total = (results, Except.error e) := by
  simp only [synthesize, ResultSynthesizer.synthesize_score, h]

theorem synthesize_eq_from (results : List TestResult) (total ms ws : ℚ)
    (h : partitionSums 0 0 results = Except.ok (ms, ws)) :
    synthesize results total = synthesizeFrom results total ms ws := by
  simp only [synthesize, ResultSynthesizer.synthesize_score, h,
    ResultSynthesizer.total_score]

theorem synthesizeFrom_not_overBudget (results : List TestResult) (total ms ws : ℚ)
    (h : ¬ ms > total) :
    (synthesizeFrom results total ms ws).2 ≠
      Except.error (PyError.internalError InternalReason.overBudget) := by
  unfold synthesizeFrom
  rw [if_neg h]
  by_cases h2 : hasWeighted results = true ∧ ws = 0
  · rw [if_pos h2]
    simp
  · rw [if_neg h2]
    rcases hres : resolveLoop (results.map (allocRecord (total - ms) ws)) with ⟨st, e?⟩
    rcases e? with _ | e
    · simp
    · have hmem := resolveLoop_error_member
        (results.map (allocRecord (total - ms) ws)) e (by rw [hres])
      rcases hmem with h1 | h1 | h1 <;> subst h1 <;> simp

theorem postTestAdditions_eq (pts : List PostTest) :
    postTestAdditions pts =
      (pts.filter fun pt => pt.as_test_case).map
        fun pt => pt.post_test_fn (freshResult pt.fn_name) := by
  induction pts with
  | nil => rfl
  | cons pt rest ih =>
    by_cases h : pt.as_test_case
    · simp [postTestAdditions, h, ih]
    · simp [postTestAdditions, h, ih]

/-! ### Claims -/

/-- C9: for every outcome record and error detail, `add_error` appends the
error to the record's `errors`; with the downgrade flag at its default
(true) the `pass_status` becomes failed, and with the downgrade suppressed
the `pass_status` is unchanged; no other field of the record changes. -/
theorem add_error_spec (r : TestResult) (e : ErrorFormatter) ( set_failed : Bool) :
    (r.add_error e set_failed).errors = r.errors ++ [e] ∧
      (r.add_error e set_failed).pass_status =
        (if set_failed then PassStatus.failed else r.pass_status) ∧
      (r.add_error e set_failed).default_name = r.default_name ∧
      (r.add_error e set_failed).name = r.name ∧
      (r.add_error e set_failed).score = r.score ∧
      (r.add_error e set_failed).max_score = r.max_score ∧
      (r.add_error e set_failed).weight = r.weight ∧
      (r.add_error e set_failed).extra_points = r.extra_points ∧
      (r.add_error e set_failed).hidden = r.hidden ∧
      (r.add_error e set_failed).descriptions = r.descriptions := by
  cases set_failed <;>
    simp [TestResult.add_error, TestResult.set_status]

/-- C10: `total_score` returns the metadata's assignment total points
whenever metadata is present, even when an explicit total score was also
supplied; with no metadata it returns the explicit total score; with
neither it fails with `ValueError` (not an `InternalError`). -/
theorem total_score_resolution (res : List TestResult) (pts : List PostTest)
    (md : Option GradescopeSubmissionMetadata) (ts : Option ℚ) :
    (∀ m, md = some m →
      (ResultSynthesizer.mk res pts md ts).total_score =
        Except.ok m.assignment.total_points) ∧
      (md = none → ∀ t, ts = some t →
        (ResultSynthesizer.mk res pts md ts).total_score = Except.ok t) ∧
      (md = none → ts = none →
        (ResultSynthesizer.mk res pts md ts).total_score =
          Except.error PyError.valueError) := by
  refine ⟨?_, ?_, ?_⟩
  · intro m hm
    subst hm
    rcases ts with _ | t <;> rfl
  · intro hm t ht
    subst hm
    subst ht
    rfl
  · intro hm ht
    subst hm
    subst ht
    rfl

/-- Witness for C10 at concrete inputs: metadata worth 42 beats an explicit
total score of 7, and with neither source set resolution fails with
`ValueError`. -/
theorem total_score_resolution_witness :
    (ResultSynthesizer.mk [] [] (some meta42) (some 7)).total_score =
        Except.ok 42 ∧
      (ResultSynthesizer.mk [] [] none none).total_score =
        Except.error PyError.valueError :=
  ⟨(total_score_resolution [] [] (some meta42) (some 7)).1 meta42 rfl,
    (total_score_resolution [] [] none none).2.2 rfl rfl⟩

/-- C8: `run_post_tests` appends to the existing results, after all
previously collected records (which are neither removed nor reordered),
exactly one fresh record — named after the hook function, then mutated by
the hook body — per post test with `as_test_case` true, in declaration
order, and no record for post tests with `as_test_case` false. -/
theorem run_post_tests_spec (s : ResultSynthesizer) :
    (s.run_post_tests).results =
        s.results ++ ((s.post_tests.filter fun pt => pt.as_test_case).map
          fun pt => pt.post_test_fn (freshResult pt.fn_name)) ∧
      (s.run_post_tests).results.take s.results.length = s.results ∧
      (s.run_post_tests).results.length =
        s.results.length +
          ((s.post_tests.filter fun pt => pt.as_test_case)).length := by
  have h := postTestAdditions_eq s.post_tests
  refine ⟨?_, ?_, ?_⟩
  · rw [ResultSynthesizer.run_post_tests, h]
  · rw [ResultSynthesizer.run_post_tests]
    exact List.take_left s.results (postTestAdditions s.post_tests)
  · rw [ResultSynthesizer.run_post_tests, h]
    simp

/-- C1 counterexample: a record whose score was already set by a custom
check and whose `max_score` and `weight` are both unset is rejected by
`synthesize` with an `InternalError` instead of being accepted and passed
through into the final sum. -/
theorem synthesize_prescored_only_rejected :
    synthesize [prescoredOnly] 10 =
        ([prescoredOnly],
          Except.error (PyError.internalError InternalReason.bothNone)) ∧
      (synthesize [prescoredOnly] 10).2 ≠ Except.ok 5 := by
  have h : partitionSums 0 0 [prescoredOnly] =
      Except.error (PyError.internalError InternalReason.bothNone) := rfl
  have h2 := synthesize_partition_error [prescoredOnly] 10
    (PyError.internalError InternalReason.bothNone) h
  refine ⟨h2, ?_⟩
  rw [h2]
  simp

/-- C1 amended: `synthesize` rejects with an `InternalError` any results
sequence containing a record with neither `max_score` nor `weight` set,
even when that record's score was already set by a custom check, and the
rejection leaves every record untouched. -/
theorem synthesize_unscored_rejection (results : List TestResult) (total : ℚ)
    (r : TestResult) (hmem : r ∈ results) (hmax : r.max_score = none)
    (hw : r.weight = none) :
    ∃ reason, synthesize results total =
      (results, Except.error (PyError.internalError reason)) := by
  obtain ⟨reason, h⟩ :=
    partitionSums_error_of_mem results r hmem (Or.inl ⟨hmax, hw⟩) 0 0
  exact ⟨reason, synthesize_partition_error results total _ h⟩

/-- Witness for the amended C1 at a concrete input: a prescored record with
`max_score` and `weight` unset is rejected. -/
theorem synthesize_unscored_rejection_witness :
    ∃ reason, synthesize [prescoredOnly] 10 =
      ([prescoredOnly], Except.error (PyError.internalError reason)) :=
  synthesize_unscored_rejection [prescoredOnly] 10 prescoredOnly
    (by simp) rfl rfl

/-- C6: a results sequence containing a record with both `max_score` and
`weight` set makes `synthesize` fail with an `InternalError`, and the
failure happens before any allocation: the returned results are exactly
the input records, unmodified. -/
theorem synthesize_ambiguous_rejection (results : List TestResult) (total : ℚ)
    (r : TestResult) (hmem : r ∈ results) (hmax : r.max_score.isSome = true)
    (hw : r.weight.isSome = true) :
    ∃ reason, synthesize results total =
      (results, Except.error (PyError.internalError reason)) := by
  obtain ⟨reason, h⟩ :=
    partitionSums_error_of_mem results r hmem (Or.inr ⟨hmax, hw⟩) 0 0
  exact ⟨reason, synthesize_partition_error results total _ h⟩

/-- Witness for C6 at a concrete input: a record with `max_score = 1` and
`weight = 2` is rejected with no record modified. -/
theorem synthesize_ambiguous_rejection_witness :
    ∃ reason, synthesize [ambiguousRec] 10 =
      ([ambiguousRec], Except.error (PyError.internalError reason)) :=
  synthesize_ambiguous_rejection [ambiguousRec] 10 ambiguousRec
    (by simp) rfl rfl

/-- C5: once the per-record partition succeeds with max-score sum `ms`,
`synthesize` fails with the over-budget `InternalError` exactly when `ms`
exceeds the total score; on that failure the input records are returned
unmodified and no score is produced; and `extra_points` values do not
contribute to `ms` (clearing them leaves the partition sums unchanged). -/
theorem synthesize_budget_check (results : List TestResult) (total ms ws : ℚ)
    (hpart : partitionSums 0 0 results = Except.ok (ms, ws)) :
    ((synthesize results total).2 =
        Except.error (PyError.internalError InternalReason.overBudget) ↔
        ms > total) ∧
      (ms > total → synthesize results total =
        (results, Except.error (PyError.internalError InternalReason.overBudget))) ∧
      partitionSums 0 0 (results.map clearExtra) = Except.ok (ms, ws) := by
  have heq := synthesize_eq_from results total ms ws hpart
  refine ⟨⟨?_, ?_⟩, ?_, ?_⟩
  · intro h
    by_contra hnot
    rw [heq] at h
    exact synthesizeFrom_not_overBudget results total ms ws hnot h
  · intro h
    rw [heq]
    unfold synthesizeFrom
    rw [if_pos h]
  · intro h
    rw [heq]
    unfold synthesizeFrom
    rw [if_pos h]
  · rw [partitionSums_clearExtra results 0 0]
    exact hpart

/-- Witness for C5 at the concrete scenario: a fixed test worth 25 against
a total of 20 fails with the over-budget `InternalError`. -/
theorem synthesize_budget_check_witness :
    synthesize [fixed25] 20 =
      ([fixed25], Except.error (PyError.internalError InternalReason.overBudget)) :=
  (synthesize_budget_check [fixed25] 20 (0 + 25) 0 rfl).2.1 (by norm_num)

/-- C4 counterexample: a results sequence whose weighted group is non-empty
with weight sum zero makes `synthesize` fail with Python's unhandled
`ZeroDivisionError`, not with an `InternalError`. -/
theorem synthesize_zero_weight_not_internal :
    synthesize [zeroWeight] 10 =
      ([zeroWeight], Except.error PyError.zeroDivisionError) := by
  have hpart : partitionSums 0 0 [zeroWeight] = Except.ok (0, 0 + 0) := rfl
  rw [synthesize_eq_from [zeroWeight] 10 0 (0 + 0) hpart]
  unfold synthesizeFrom
  rw [if_neg (by norm_num), if_pos ⟨rfl, by norm_num⟩]

/-- C4 amended: a results sequence whose weighted group is non-empty with
weight sum zero (and which passes the earlier checks) makes `synthesize`
fail with an unhandled `ZeroDivisionError` — an arithmetic exception, not
an `InternalError` — leaving every record unmodified. -/
theorem synthesize_zero_weight_sum (results : List TestResult) (total ms : ℚ)
    (hpart : partitionSums 0 0 results = Except.ok (ms, 0))
    (hw : hasWeighted results = true) (hms : ¬ ms > total) :
    synthesize results total =
      (results, Except.error PyError.zeroDivisionError) := by
  rw [synthesize_eq_from results total ms 0 hpart]
  unfold synthesizeFrom
  rw [if_neg hms, if_pos ⟨hw, rfl⟩]

/-- Witness for the amended C4 at a concrete input: one weighted test of
weight zero raises `ZeroDivisionError`. -/
theorem synthesize_zero_weight_sum_witness :
    synthesize [zeroWeight] 10 ≠
        ([zeroWeight], Except.error (PyError.internalError InternalReason.overBudget)) ∧
      synthesize [zeroWeight] 10 =
        ([zeroWeight], Except.error PyError.zeroDivisionError) := by
  have h := synthesize_zero_weight_sum [zeroWeight] 10 0
    (by norm_num [partitionSums, zeroWeight, freshResult]) rfl (by norm_num)
  exact ⟨by rw [h]; simp, h⟩

/-- C2: once the per-record partition succeeds with sums `(ms, ws)`,
`ws > 0` and the fixed budget `ms` does not exceed the total, the record at
any index that carried weight `w` ends up, in the state returned by
`synthesize`, with `max_score = w * (total - ms) / ws` and its weight
cleared. -/
theorem synthesize_weighted_allocation (results : List TestResult)
    (total ms ws : ℚ) (i : ℕ) (r : TestResult) (w : ℚ)
    (hpart : partitionSums 0 0 results = Except.ok (ms, ws)) (hws : 0 < ws)
    (hms : ¬ ms > total) (hget : results[i]? = some r)
    (hw : r.weight = some w) :
    ∃ r2, (synthesize results total).1[i]? = some r2 ∧
      r2.max_score = some (w * (total - ms) / ws) ∧ r2.weight = none := by
  rw [synthesize_eq_from results total ms ws hpart]
  unfold synthesizeFrom
  rw [if_neg hms, if_neg (by
    rintro ⟨h1, h2⟩
    rw [h2] at hws
    exact absurd hws (lt_irrefl 0))]
  rcases hres : resolveLoop (results.map (allocRecord (total - ms) ws)) with ⟨st, e?⟩
  have hmw := resolveLoop_fst_max_weight (results.map (allocRecord (total - ms) ws)) i
  have halloc : (results.map (allocRecord (total - ms) ws))[i]? =
      some (allocRecord (total - ms) ws r) := by
    rw [List.getElem?_map, hget]
    rfl
  rw [hres, halloc, allocRecord_weight_some (total - ms) ws r w hw] at hmw
  simp only [Option.map_some', Option.map_eq_some', Prod.mk.injEq] at hmw
  obtain ⟨r2, hr2, hf1, hf2⟩ := hmw
  rcases e? with _ | e
  · exact ⟨r2, hr2, hf1, hf2⟩
  · exact ⟨r2, hr2, hf1, hf2⟩

/-- Witness for C2 at the concrete scenario: two weighted tests of weights
1 and 3 with total score 10 and no fixed tests are allocated max scores
1 * (10 - 0) / (0 + 1 + 3) = 2.5 and 3 * (10 - 0) / (0 + 1 + 3) = 7.5. -/
theorem synthesize_weighted_allocation_witness :
    (∃ r2, (synthesize [weightOne, weightThree] 10).1[0]? = some r2 ∧
      r2.max_score = some (1 * (10 - 0) / (0 + 1 + 3)) ∧ r2.weight = none) ∧
    (∃ r2, (synthesize [weightOne, weightThree] 10).1[1]? = some r2 ∧
      r2.max_score = some (3 * (10 - 0) / (0 + 1 + 3)) ∧ r2.weight = none) ∧
    (1 : ℚ) * (10 - 0) / (0 + 1 + 3) = 5 / 2 ∧
    (3 : ℚ) * (10 - 0) / (0 + 1 + 3) = 15 / 2 :=
  ⟨synthesize_weighted_allocation [weightOne, weightThree] 10 0 (0 + 1 + 3) 0
      weightOne 1 rfl (by norm_num) (by norm_num) rfl rfl,
    synthesize_weighted_allocation [weightOne, weightThree] 10 0 (0 + 1 + 3) 1
      weightThree 3 rfl (by norm_num) (by norm_num) rfl rfl,
    by norm_num, by norm_num⟩

/-- C3: whenever `synthesize` succeeds, the record at any index that had no
pre-set score ends up with a resolved score: its own `max_score` when it
passed without `extra_points` set, its `extra_points` value when it passed
with them set (extra credit replaces the base score), and `0` when it did
not pass; and the returned grade is the sum of all records' scores. -/
theorem synthesize_score_resolution (results : List TestResult) (total : ℚ)
    (st : List TestResult) (sc : ℚ) (i : ℕ) (r : TestResult)
    (h : synthesize results total = (st, Except.ok sc))
    (hget : results[i]? = some r) (hscore : r.score = none) :
    (∃ r2, st[i]? = some r2 ∧ r2.score.isSome = true ∧
      (r.pass_status = PassStatus.passed → r.extra_points = none →
        r2.score = r2.max_score) ∧
      (∀ x, r.pass_status = PassStatus.passed → r.extra_points = some x →
        r2.score = some x) ∧
      (¬ r.pass_status = PassStatus.passed → r2.score = some 0)) ∧
    sc = (st.map scoreOf).sum := by
  rcases hp : partitionSums 0 0 results with e | ⟨ms, ws⟩
  · rw [synthesize_partition_error results total e hp] at h
    simp at h
  · rw [synthesize_eq_from results total ms ws hp] at h
    unfold synthesizeFrom at h
    by_cases hob : ms > total
    · rw [if_pos hob] at h
      simp at h
    · rw [if_neg hob] at h
      by_cases hguard : hasWeighted results = true ∧ ws = 0
      · rw [if_pos hguard] at h
        simp at h
      · rw [if_neg hguard] at h
        rcases hres : resolveLoop (results.map (allocRecord (total - ms) ws))
          with ⟨st2, e?⟩
        rcases e? with _ | e
        · rw [hres] at h
          have h2 : (st2, Except.ok ((st2.map scoreOf).sum)) =
              (st, Except.ok sc) := h
          have hst : st2 = st := (Prod.ext_iff.mp h2).1
          have hsc : sc = (st.map scoreOf).sum := by
            rw [← Except.ok.inj (Prod.ext_iff.mp h2).2, hst]
          subst hst
          refine ⟨?_, hsc⟩
          have hnone : (resolveLoop (results.map (allocRecord (total - ms) ws))).2 =
              none := by
            rw [hres]
          have halloc : (results.map (allocRecord (total - ms) ws))[i]? =
              some (allocRecord (total - ms) ws r) := by
            rw [List.getElem?_map, hget]
            rfl
          obtain ⟨r2, hst2, hstep⟩ := resolveLoop_none_step _ hnone i _ halloc
          rw [hres] at hst2
          obtain ⟨ha_score, ha_extra, ha_pass⟩ :=
            allocRecord_preserves (total - ms) ws r
          rw [hscore] at ha_score
          have hmem : r ∈ results := List.getElem?_mem hget
          have hmax := partitionSums_ok_fields results 0 0 (ms, ws) hp r hmem
          have hamax : (allocRecord (total - ms) ws r).max_score.isSome = true :=
            allocRecord_max_isSome (total - ms) ws r hmax
          obtain ⟨m, ham⟩ := Option.isSome_iff_exists.mp hamax
          refine ⟨r2, hst2, resolveStep_ok_score_isSome _ r2 hstep, ?_, ?_, ?_⟩
          · intro hpass hextra
            rw [resolveStep_passed (allocRecord (total - ms) ws r) m ha_score ham
              (ha_pass.trans hpass) (ha_extra.trans hextra)] at hstep
            rw [← Except.ok.inj hstep]
            simp [ham]
          · intro x hpass hextra
            rw [resolveStep_passed_extra (allocRecord (total - ms) ws r) m x ha_score
              ham (ha_pass.trans hpass) (ha_extra.trans hextra)] at hstep
            rw [← Except.ok.inj hstep]
          · intro hnp
            rw [resolveStep_not_passed (allocRecord (total - ms) ws r) m ha_score ham
              (fun hc => hnp (ha_pass.symm.trans hc))] at hstep
            rw [← Except.ok.inj hstep]
        · rw [hres] at h
          have h2 : (st2, (Except.error e : Except PyError ℚ)) =
              (st, Except.ok sc) := h
          have := (Prod.ext_iff.mp h2).2
          simp at this

/-- Witness for C3 at the concrete scenario: the failing test resolves to
score 0, the passing test with extra points resolves to score 7 (extra
credit replaces the base max score), and the returned grade 7 is the sum
of all scores. -/
theorem synthesize_score_resolution_witness :
    (∃ r2, stScenario5[1]? = some r2 ∧ r2.score.isSome = true ∧
      (passExtra.pass_status = PassStatus.passed → passExtra.extra_points = none →
        r2.score = r2.max_score) ∧
      (∀ x, passExtra.pass_status = PassStatus.passed →
        passExtra.extra_points = some x → r2.score = some x) ∧
      (¬ passExtra.pass_status = PassStatus.passed → r2.score = some 0)) ∧
    (7 : ℚ) = (stScenario5.map scoreOf).sum :=
  synthesize_score_resolution [failFixed5, passExtra] 10 stScenario5 7 1 passExtra
    (by norm_num [synthesize, ResultSynthesizer.synthesize_score,
      ResultSynthesizer.total_score, partitionSums, synthesizeFrom, hasWeighted,
      allocRecord, resolveLoop, resolveStep, scoreOf, stScenario5, failFixed5,
      passExtra, freshResult, failed_ne_passed])
    rfl rfl

/-- C7 counterexample: with a negative prescored record and a weighted
record in the sequence, `synthesize` does fail with the negative-score
`InternalError`, but the weighted record has already been mutated by the
allocation (its `max_score` set to 9 and `weight` cleared), so the failure
does not leave the records unmodified. -/
theorem synthesize_mutation_before_checks :
    synthesize [negPrescored, weightOne] 10 =
        ([negPrescored, { weightOne with max_score := some 9, weight := none }],
          Except.error (PyError.internalError InternalReason.negativeScore)) ∧
      (synthesize [negPrescored, weightOne] 10).1 ≠ [negPrescored, weightOne] := by
  have h1 : synthesize [negPrescored, weightOne] 10 =
      ([negPrescored, { weightOne with max_score := some 9, weight := none }],
        Except.error (PyError.internalError InternalReason.negativeScore)) := by
    norm_num [synthesize, ResultSynthesizer.synthesize_score,
      ResultSynthesizer.total_score, partitionSums, synthesizeFrom, hasWeighted,
      allocRecord, resolveLoop, resolveStep, negPrescored, weightOne, freshResult,
      failed_ne_passed]
  refine ⟨h1, ?_⟩
  rw [h1]
  simp [weightOne, freshResult]

/-- C7 amended: a negative pre-set score or a pre-set score together with
`extra_points` makes `synthesize` fail with the corresponding
`InternalError`, with the negative-score check performed first on each
record; but these checks run only after the allocation loop, so at the
moment of failure every weighted record has already had its `max_score`
allocated and its `weight` cleared. -/
theorem synthesize_late_validation (results : List TestResult)
    (total ms ws : ℚ) (r0 : TestResult) (s : ℚ) (i : ℕ) (r : TestResult) (w : ℚ)
    (hpart : partitionSums 0 0 results = Except.ok (ms, ws))
    (hms : ¬ ms > total)
    (hguard : ¬ (hasWeighted results = true ∧ ws = 0))
    (hmem : r0 ∈ results) (hs : r0.score = some s)
    (hbad : s < 0 ∨ r0.extra_points.isSome = true)
    (hget : results[i]? = some r) (hw : r.weight = some w) :
    (∀ r3 (s3 : ℚ), r3.score = some s3 → s3 < 0 →
      resolveStep r3 =
        Except.error (PyError.internalError InternalReason.negativeScore)) ∧
    ∃ st, (synthesize results total =
          (st, Except.error (PyError.internalError InternalReason.negativeScore)) ∨
        synthesize results total =
          (st, Except.error (PyError.internalError InternalReason.scoreAndExtra))) ∧
      ∃ r2, st[i]? = some r2 ∧
        r2.max_score = some (w * (total - ms) / ws) ∧ r2.weight = none := by
  refine ⟨fun r3 s3 h3 h4 => resolveStep_neg r3 s3 h3 h4, ?_⟩
  rw [synthesize_eq_from results total ms ws hpart]
  unfold synthesizeFrom
  rw [if_neg hms, if_neg hguard]
  have hmaxall : ∀ x ∈ results.map (allocRecord (total - ms) ws),
      x.max_score.isSome = true := by
    intro x hx
    obtain ⟨y, hy, rfl⟩ := List.mem_map.mp hx
    exact allocRecord_max_isSome _ _ y
      (partitionSums_ok_fields results 0 0 (ms, ws) hpart y hy)
  have hbadmem : allocRecord (total - ms) ws r0 ∈
      results.map (allocRecord (total - ms) ws) := List.mem_map_of_mem _ hmem
  obtain ⟨hsc0, hex0, _⟩ := allocRecord_preserves (total - ms) ws r0
  have herr := resolveLoop_error_of_bad (results.map (allocRecord (total - ms) ws))
    hmaxall (allocRecord (total - ms) ws r0) hbadmem s (by rw [hsc0, hs])
    (by rcases hbad with hb | hb
        · exact Or.inl hb
        · exact Or.inr (by rw [hex0]; exact hb))
  rcases hres : resolveLoop (results.map (allocRecord (total - ms) ws)) with ⟨st2, e?⟩
  have hmw := resolveLoop_fst_max_weight (results.map (allocRecord (total - ms) ws)) i
  have halloc : (results.map (allocRecord (total - ms) ws))[i]? =
      some (allocRecord (total - ms) ws r) := by
    rw [List.getElem?_map, hget]
    rfl
  rw [hres, halloc, allocRecord_weight_some (total - ms) ws r w hw] at hmw
  simp only [Option.map_some', Option.map_eq_some', Prod.mk.injEq] at hmw
  obtain ⟨r2, hr2, hf1, hf2⟩ := hmw
  rw [hres] at herr
  rcases herr with he | he
  · have he2 : e? = some (PyError.internalError InternalReason.negativeScore) := he
    subst he2
    exact ⟨st2, Or.inl rfl, r2, hr2, hf1, hf2⟩
  · have he2 : e? = some (PyError.internalError InternalReason.scoreAndExtra) := he
    subst he2
    exact ⟨st2, Or.inr rfl, r2, hr2, hf1, hf2⟩

/-- Witness for the amended C7 at a concrete input: the negative prescored
record makes synthesis fail with the negative-score `InternalError`, while
the weighted record at index 1 has already been allocated
`1 * (10 - (0 + 1)) / (0 + 1) = 9` and had its weight cleared. -/
theorem synthesize_late_validation_witness :
    ∃ st, (synthesize [negPrescored, weightOne] 10 =
          (st, Except.error (PyError.internalError InternalReason.negativeScore)) ∨
        synthesize [negPrescored, weightOne] 10 =
          (st, Except.error (PyError.internalError InternalReason.scoreAndExtra))) ∧
      ∃ r2, st[1]? = some r2 ∧
        r2.max_score = some (1 * (10 - (0 + 1)) / (0 + 1)) ∧ r2.weight = none :=
  (synthesize_late_validation [negPrescored, weightOne] 10 (0 + 1) (0 + 1)
    negPrescored (-1) 1 weightOne 1 rfl (by norm_num)
    (by rintro ⟨h1, h2⟩; norm_num at h2)
    (by simp) rfl (Or.inl (by norm_num)) rfl rfl).2
